import Mathlib

/-!
Verification development for the OpenClaw market-monitor daemon
(`src/monitor.js`).  The indicator library, the threshold and position
evaluators and the per-instrument deduplicate / sort / truncate pipeline
are embedded as executable Lean functions.  JavaScript numbers are
modelled as rationals; fields that JavaScript leaves `null`/`undefined`
(or that become `NaN`) are modelled as `Option ℚ`, and the JavaScript
truthiness tests (`if (x)` on a number) are modelled as "present and
nonzero".  Alert message strings (pure presentation, never inspected by
the program) are omitted from the alert model; the structured `data`
payloads are kept.
-/

/-- The six alert kinds used by monitor.js (`a.type` strings). -/
inductive AlertType
  | priceChange
  | volumeSpike
  | rsi
  | maCross
  | nearStopLoss
  | nearTarget
deriving DecidableEq, Repr

/-- Alert severities (`alert.severity` strings). -/
inductive Severity
  | MEDIUM
  | HIGH
  | CRITICAL
deriving DecidableEq, Repr

/-- The structured `data` payload carried by each alert kind, as built in
`checkThresholds` / `checkPositions` of monitor.js.  String fields are the
`toFixed` renderings the source stores; numeric fields are kept as numbers. -/
inductive AlertData
  | priceChangeD (changePct : String) (price prevClose : ℚ)
  | volumeSpikeD (volume : ℚ) (avgVolume : ℤ) (multiple : ℚ)
  | rsiD (rsi : String) (condition : String)
  | emaCrossD (crossType : String) (shortMA longMA : String)
  | smaCrossD (crossType : String) (sma50 sma200 : String)
  | nearStopD (price stopLoss : ℚ) (distancePct : String)
  | nearTargetD (price target : ℚ) (distancePct : String)
deriving DecidableEq, Repr

/-- An alert record: kind, severity and structured payload
(the human-readable `message` string of the source is presentation only
and not modelled). -/
structure Alert where
  type : AlertType
  severity : Severity
  data : AlertData
deriving DecidableEq, Repr

/-- `config.thresholds` of monitor.js: the named numeric parameters. -/
structure Thresholds where
  priceChangePct : ℚ
  volumeSpikeMultiplier : ℚ
  rsiOverbought : ℚ
  rsiOversold : ℚ
  maShortPeriod : ℕ
  maLongPeriod : ℕ
  goldenDeathCrossShort : ℕ
  goldenDeathCrossLong : ℕ
  nearStopLossPct : ℚ
  nearTargetPct : ℚ
deriving DecidableEq, Repr

/-- A quote as assembled per ticker in `fetchSnapshots` (the fields the
evaluators read: price, session volume, previous close and the derived
percent change). -/
structure Quote where
  price : ℚ
  volume : ℚ
  prevClose : ℚ
  changePct : Option ℚ
deriving DecidableEq, Repr

/-- Quote construction from `fetchSnapshots`:
`changePct = prevClose ? ((price - prevClose) / prevClose) * 100 : null`.
A zero previous close is falsy in JavaScript, so it yields `null`. -/
def mkQuote (price prevClose volume : ℚ) : Quote :=
  { price := price
    volume := volume
    prevClose := prevClose
    changePct := if prevClose ≠ 0 then some ((price - prevClose) / prevClose * 100) else none }

/-- An active-position row of `watchlist.md` after parsing
(`cols[0]` symbol, `parseFloat(cols[2])` stop, `parseFloat(cols[3])` target,
`cols[4]` status).  `none` models an unparseable (`NaN`) numeric field. -/
structure Position where
  symbol : String
  stopLoss : Option ℚ
  target : Option ℚ
  active : Bool
deriving DecidableEq, Repr

/-- ECMAScript `Number.prototype.toFixed` rounding: the integer `n`
minimising `|n / 10^f - |x||`, ties to the larger `n` (i.e. round half away
from zero, applied to the magnitude). -/
def roundMag (x : ℚ) (scale : ℕ) : ℤ :=
  if x < 0 then -⌊(-x) * scale + 1/2⌋ else ⌊x * scale + 1/2⌋

/-- `parseFloat(x.toFixed(1))`: the value of `x` rounded to one decimal. -/
def roundTo1 (x : ℚ) : ℚ := (roundMag x 10 : ℚ) / 10

/-- JavaScript `Math.round`: round half toward positive infinity. -/
def mathRound (x : ℚ) : ℤ := ⌊x + 1/2⌋

/-- Left-pad a numeral below 10 with a zero (fraction digits of `toFixed(2)`). -/
def pad2 (n : ℕ) : String := if n < 10 then "0" ++ toString n else toString n

/-- `x.toFixed(2)` as a string (sign taken from the input, as in ECMAScript). -/
def toFixed2 (x : ℚ) : String :=
  let n := (roundMag x 100).natAbs
  (if x < 0 then "-" else "") ++ toString (n / 100) ++ "." ++ pad2 (n % 100)

/-- `x.toFixed(1)` as a string. -/
def toFixed1 (x : ℚ) : String :=
  let n := (roundMag x 10).natAbs
  (if x < 0 then "-" else "") ++ toString (n / 10) ++ "." ++ toString (n % 10)

/-- Summed positive deltas and summed absolute non-positive deltas over the
consecutive differences of a list (the `gains` / `losses` loop of `calcRSI`). -/
def gainsLosses : List ℚ → ℚ × ℚ
  | [] => (0, 0)
  | [_] => (0, 0)
  | a :: b :: rest =>
      let p := gainsLosses (b :: rest)
      let d := b - a
      if d > 0 then (p.1 + d, p.2) else (p.1, p.2 + |d|)

/-- `calcRSI(closes, period = 14)` from monitor.js: trailing-window simple
RSI over the most recent `period + 1` closes; `null` below the minimum
length; `100` when the loss sum is zero. -/
def calcRSI (closes : List ℚ) (period : ℕ := 14) : Option ℚ :=
  if closes.length < period + 1 then none
  else
    let recent := closes.drop (closes.length - (period + 1))
    let gl := gainsLosses recent
    if gl.2 = 0 then some 100
    else
      let rs := (gl.1 / period) / (gl.2 / period)
      some (100 - 100 / (1 + rs))

/-- `calcEMA(closes, period)` from monitor.js: seed with the simple average
of the first `period` closes, then fold forward with `k = 2 / (period + 1)`.
A zero period makes the JavaScript seed `NaN` (division by zero), which the
callers' truthiness guards treat as absent; modelled as `none`. -/
def calcEMA (closes : List ℚ) (period : ℕ) : Option ℚ :=
  if closes.length < period ∨ period = 0 then none
  else
    let k : ℚ := 2 / (period + 1)
    let seed : ℚ := (closes.take period).sum / period
    some ((closes.drop period).foldl (fun e x => x * k + e * (1 - k)) seed)

/-- `calcSMA(closes, period)` from monitor.js: mean of the trailing `period`
closes.  A zero period divides by zero (`NaN`) in JavaScript; modelled as
`none` (same caller-visible behaviour under the truthiness guards). -/
def calcSMA (closes : List ℚ) (period : ℕ) : Option ℚ :=
  if closes.length < period ∨ period = 0 then none
  else some ((closes.drop (closes.length - period)).sum / period)

/-- The `priceChange` rule of `checkThresholds`:
`if (quote.changePct && Math.abs(quote.changePct) >= t.priceChangePct)`.
The leading truthiness test requires `changePct` present and nonzero. -/
def priceChangeAlerts (t : Thresholds) (q : Quote) : List Alert :=
  match q.changePct with
  | none => []
  | some cp =>
      if cp ≠ 0 ∧ |cp| ≥ t.priceChangePct then
        [{ type := .priceChange
           severity := if |cp| ≥ t.priceChangePct * 2 then .HIGH else .MEDIUM
           data := .priceChangeD (toFixed2 cp) q.price q.prevClose }]
      else []

/-- The `volumeSpike` rule of `checkThresholds`:
`if (avgVolume[ticker] && quote.volume > avgVolume[ticker] * t.volumeSpikeMultiplier)`;
the stored `multiple` is `parseFloat((volume / avg).toFixed(1))` and the
severity compares that rounded multiple against 3.0. -/
def volumeSpikeAlerts (t : Thresholds) (q : Quote) (avgVol : Option ℚ) : List Alert :=
  match avgVol with
  | none => []
  | some av =>
      if av ≠ 0 ∧ q.volume > av * t.volumeSpikeMultiplier then
        let multiple := roundTo1 (q.volume / av)
        [{ type := .volumeSpike
           severity := if multiple ≥ 3 then .HIGH else .MEDIUM
           data := .volumeSpikeD q.volume (mathRound av) multiple }]
      else []

/-- The `rsi` rule of `checkThresholds`: overbought at or above the
threshold, else oversold at or below the oversold threshold. -/
def rsiAlerts (t : Thresholds) (history : List ℚ) : List Alert :=
  match calcRSI history with
  | none => []
  | some r =>
      if r ≥ t.rsiOverbought then
        [{ type := .rsi, severity := .MEDIUM, data := .rsiD (toFixed1 r) "overbought" }]
      else if r ≤ t.rsiOversold then
        [{ type := .rsi, severity := .MEDIUM, data := .rsiD (toFixed1 r) "oversold" }]
      else []

/-- The EMA-crossover rule of `checkThresholds` (lines 174-185): current and
previous (history minus last element) short/long EMAs, guarded by
`if (emaS && emaL && prevEmaS && prevEmaL)` — each value must be present
AND nonzero (JavaScript truthiness). -/
def emaCrossAlerts (t : Thresholds) (history : List ℚ) : List Alert :=
  match calcEMA history t.maShortPeriod, calcEMA history t.maLongPeriod,
        calcEMA history.dropLast t.maShortPeriod, calcEMA history.dropLast t.maLongPeriod with
  | some emaS, some emaL, some prevEmaS, some prevEmaL =>
      if emaS ≠ 0 ∧ emaL ≠ 0 ∧ prevEmaS ≠ 0 ∧ prevEmaL ≠ 0 then
        if prevEmaS ≤ prevEmaL ∧ emaS > emaL then
          [{ type := .maCross, severity := .HIGH
             data := .emaCrossD "bullish" (toFixed2 emaS) (toFixed2 emaL) }]
        else if prevEmaS ≥ prevEmaL ∧ emaS < emaL then
          [{ type := .maCross, severity := .HIGH
             data := .emaCrossD "bearish" (toFixed2 emaS) (toFixed2 emaL) }]
        else []
      else []
  | _, _, _, _ => []

/-- The SMA golden/death-cross rule of `checkThresholds` (lines 187-198),
same crossover logic over the configured SMA periods. -/
def smaCrossAlerts (t : Thresholds) (history : List ℚ) : List Alert :=
  match calcSMA history t.goldenDeathCrossShort, calcSMA history t.goldenDeathCrossLong,
        calcSMA history.dropLast t.goldenDeathCrossShort,
        calcSMA history.dropLast t.goldenDeathCrossLong with
  | some sma50, some sma200, some prevSma50, some prevSma200 =>
      if sma50 ≠ 0 ∧ sma200 ≠ 0 ∧ prevSma50 ≠ 0 ∧ prevSma200 ≠ 0 then
        if prevSma50 ≤ prevSma200 ∧ sma50 > sma200 then
          [{ type := .maCross, severity := .HIGH
             data := .smaCrossD "golden" (toFixed2 sma50) (toFixed2 sma200) }]
        else if prevSma50 ≥ prevSma200 ∧ sma50 < sma200 then
          [{ type := .maCross, severity := .HIGH
             data := .smaCrossD "death" (toFixed2 sma50) (toFixed2 sma200) }]
        else []
      else []
  | _, _, _, _ => []

/-- `checkThresholds(ticker, quote)` of monitor.js: the five threshold
rules in source order (the ticker parameter only feeds message strings,
which are not modelled; the module state `priceHistory[ticker]` and
`avgVolume[ticker]` are explicit arguments). -/
def checkThresholds (t : Thresholds) (q : Quote) (avgVol : Option ℚ)
    (history : List ℚ) : List Alert :=
  priceChangeAlerts t q ++ volumeSpikeAlerts t q avgVol ++ rsiAlerts t history
    ++ emaCrossAlerts t history ++ smaCrossAlerts t history

/-- Per-row body of `checkPositions`: stop-loss proximity then target
proximity.  `if (stopLoss && !isNaN(stopLoss))` is truthiness again:
parseable (`some`) and nonzero. -/
def positionAlerts (t : Thresholds) (q : Quote) (p : Position) : List Alert :=
  (match p.stopLoss with
   | none => []
   | some stopLoss =>
       if stopLoss ≠ 0 then
         let dist := (q.price - stopLoss) / q.price * 100
         if |dist| ≤ t.nearStopLossPct then
           [{ type := .nearStopLoss, severity := .CRITICAL
              data := .nearStopD q.price stopLoss (toFixed1 dist) }]
         else []
       else [])
  ++
  (match p.target with
   | none => []
   | some target =>
       if target ≠ 0 then
         let dist := (target - q.price) / q.price * 100
         if |dist| ≤ t.nearTargetPct then
           [{ type := .nearTarget, severity := .HIGH
              data := .nearTargetD q.price target (toFixed1 dist) }]
         else []
       else [])

/-- `checkPositions(ticker, quote)` of monitor.js over the parsed position
rows: only rows whose symbol matches the ticker and whose status is
`active` contribute (rows failing the parse are already `none` fields /
absent and contribute nothing). -/
def checkPositions (t : Thresholds) (ticker : String) (q : Quote)
    (ps : List Position) : List Alert :=
  ps.flatMap fun p =>
    if p.symbol = ticker ∧ p.active then positionAlerts t q p else []

/-- The `recentAlerts` dedup ledger: JavaScript-object map from
`` `${ticker}:${alertType}` `` to the last-fired timestamp.  Updates shadow
earlier entries; lookup takes the most recent binding. -/
def Ledger : Type := List ((String × AlertType) × ℤ)

/-- Ledger lookup (`recentAlerts[key]`). -/
def lget : Ledger → String × AlertType → Option ℤ
  | [], _ => none
  | (k, v) :: rest, key => if k = key then some v else lget rest key

/-- Ledger update (`recentAlerts[key] = now`). -/
def lset (key : String × AlertType) (v : ℤ) (l : Ledger) : Ledger :=
  (key, v) :: l

/-- `isDuplicate(ticker, alertType)` of monitor.js, with the call-time clock
passed explicitly: duplicate iff a previous timestamp exists, is truthy
(nonzero) and is newer than `now - window`; otherwise the ledger entry is
set to `now`.  Returns (is-duplicate, updated ledger). -/
def isDuplicate (ledger : Ledger) (now window : ℤ) (ticker : String)
    (ty : AlertType) : Bool × Ledger :=
  match lget ledger (ticker, ty) with
  | some last =>
      if last ≠ 0 ∧ now - last < window then (true, ledger)
      else (false, lset (ticker, ty) now ledger)
  | none => (false, lset (ticker, ty) now ledger)

/-- Whether `isDuplicate` would drop a candidate of this kind right now. -/
def suppressed (ledger : Ledger) (now window : ℤ) (ticker : String)
    (ty : AlertType) : Bool :=
  (isDuplicate ledger now window ticker ty).1

/-- The `.filter(a => !isDuplicate(ticker, a.type))` stage of `scan`:
left-to-right over the candidates, threading the mutating ledger. -/
def dedupFilter (ticker : String) (now window : ℤ) (ledger : Ledger) :
    List Alert → List Alert × Ledger
  | [] => ([], ledger)
  | a :: rest =>
      let r := isDuplicate ledger now window ticker a.type
      let k := dedupFilter ticker now window r.2 rest
      (if r.1 then k.1 else a :: k.1, k.2)

/-- `Array.prototype.indexOf` over the configured priority order: position
of the kind, `-1` when absent. -/
def jsIndexOf : List AlertType → AlertType → ℤ
  | [], _ => -1
  | x :: xs, ty =>
      if x = ty then 0
      else
        let r := jsIndexOf xs ty
        if r = -1 then -1 else r + 1

/-- Stable insertion of an element before the first strictly-larger key
(elements with equal keys keep their original relative order). -/
def oInsert (key : Alert → ℤ) (a : Alert) : List Alert → List Alert
  | [] => [a]
  | b :: l => if key a ≤ key b then a :: b :: l else b :: oInsert key a l

/-- Stable sort by an integer key: the behaviour of the ECMAScript stable
`Array.prototype.sort` with comparator `(a, b) => key(a) - key(b)`. -/
def stableSort (key : Alert → ℤ) : List Alert → List Alert
  | [] => []
  | a :: l => oInsert key a (stableSort key l)

/-- Lines 299-302 of `scan`, for one ticker's merged candidate list:
`[...candidates].filter(a => !isDuplicate(ticker, a.type))
  .sort((a, b) => priorityOrder.indexOf(a.type) - priorityOrder.indexOf(b.type))
  .slice(0, maxAlertsPerTicker)`,
returning the final alert list together with the updated dedup ledger. -/
def selectAlerts (order : List AlertType) (maxN : ℕ) (window now : ℤ)
    (ticker : String) (ledger : Ledger) (cands : List Alert) :
    List Alert × Ledger :=
  let d := dedupFilter ticker now window ledger cands
  ((stableSort (fun a => jsIndexOf order a.type) d.1).take maxN, d.2)

/-- Default `config.alerts.priorityOrder` (FR-4):
nearStopLoss > nearTarget > maCross > volumeSpike > rsi > priceChange. -/
def defaultPriorityOrder : List AlertType :=
  [.nearStopLoss, .nearTarget, .maCross, .volumeSpike, .rsi, .priceChange]

/-- Default thresholds from the product requirements (FR-3): 2% price move,
2x volume, RSI 70/30, EMA 9/21, SMA 50/200, 2% stop/target proximity. -/
def defaultThresholds : Thresholds :=
  { priceChangePct := 2
    volumeSpikeMultiplier := 2
    rsiOverbought := 70
    rsiOversold := 30
    maShortPeriod := 9
    maLongPeriod := 21
    goldenDeathCrossShort := 50
    goldenDeathCrossLong := 200
    nearStopLossPct := 2
    nearTargetPct := 2 }

/-- A minimal candidate alert of a given kind, used to probe the
deduplication pipeline on concrete inputs. -/
def probeAlert (ty : AlertType) : Alert :=
  { type := ty, severity := .MEDIUM, data := .rsiD "0" "probe" }

/-! ## Indicator lemmas -/

/-- The EMA recurrence over a run of the constant `c` stays at `c`. -/
theorem foldl_ema_const (k c : ℚ) :
    ∀ m : ℕ, (List.replicate m c).foldl (fun e x => x * k + e * (1 - k)) c = c := by
  intro m
  induction m with
  | zero => rfl
  | succ m ih =>
      rw [List.replicate_succ, List.foldl_cons]
      have h : c * k + c * (1 - k) = c := by ring
      rw [h, ih]

/-- `calcEMA` on a constant sequence returns that constant for any valid period. -/
theorem calcEMA_replicate (c : ℚ) (n p : ℕ) (hp : 1 ≤ p) (hpn : p ≤ n) :
    calcEMA (List.replicate n c) p = some c := by
  have hp0 : p ≠ 0 := Nat.one_le_iff_ne_zero.mp hp
  have hlen : ¬((List.replicate n c).length < p ∨ p = 0) := by
    simp only [List.length_replicate, not_or]
    exact ⟨Nat.not_lt.mpr hpn, hp0⟩
  rw [calcEMA, if_neg hlen]
  have htake : (List.replicate n c).take p = List.replicate p c := by
    rw [List.take_replicate, Nat.min_eq_left hpn]
  have hdrop : (List.replicate n c).drop p = List.replicate (n - p) c := by
    rw [List.drop_replicate]
  have hsum : (List.replicate p c).sum = (p : ℚ) * c := by
    rw [List.sum_replicate, nsmul_eq_mul]
  have hcast : ((p : ℚ) * c) / (p : ℚ) = c := by
    rw [mul_div_cancel_left₀]
    exact_mod_cast hp0
  simp only [htake, hdrop, hsum, hcast, foldl_ema_const]

/-- `calcSMA` on a constant sequence returns that constant for any valid period. -/
theorem calcSMA_replicate (c : ℚ) (n p : ℕ) (hp : 1 ≤ p) (hpn : p ≤ n) :
    calcSMA (List.replicate n c) p = some c := by
  have hp0 : p ≠ 0 := Nat.one_le_iff_ne_zero.mp hp
  have hlen : ¬((List.replicate n c).length < p ∨ p = 0) := by
    simp only [List.length_replicate, not_or]
    exact ⟨Nat.not_lt.mpr hpn, hp0⟩
  rw [calcSMA, if_neg hlen]
  have hdrop : (List.replicate n c).drop ((List.replicate n c).length - p)
      = List.replicate p c := by
    rw [List.length_replicate, List.drop_replicate, Nat.sub_sub_self hpn]
  rw [hdrop, List.sum_replicate, nsmul_eq_mul, mul_div_cancel_left₀]
  exact_mod_cast hp0

/-- A non-decreasing list accumulates no losses. -/
theorem gainsLosses_snd_of_sorted :
    ∀ l : List ℚ, l.Sorted (· ≤ ·) → (gainsLosses l).2 = 0 := by
  intro l
  induction l with
  | nil => intro _; rfl
  | cons a rest ih =>
      intro hs
      match rest with
      | [] => rfl
      | b :: rest' =>
          have hab : a ≤ b := (List.sorted_cons.mp hs).1 b (by simp)
          have htail : (b :: rest').Sorted (· ≤ ·) := (List.sorted_cons.mp hs).2
          have ihv := ih htail
          by_cases hd : b - a > 0
          · simp only [gainsLosses, if_pos hd]
            exact ihv
          · have hz : b - a = 0 := le_antisymm (not_lt.mp hd) (by linarith)
            simp only [gainsLosses]
            rw [if_neg hd]
            simp [hz, ihv]

/-- `calcRSI` returns 100 whenever the trailing-window loss sum is zero. -/
theorem calcRSI_eq_100_of_no_losses (closes : List ℚ) (hlen : 15 ≤ closes.length)
    (hz : (gainsLosses (closes.drop (closes.length - 15))).2 = 0) :
    calcRSI closes = some 100 := by
  rw [calcRSI, if_neg (by omega)]
  simp only [hz]
  simp

/-- `calcRSI` on a non-decreasing sequence of length at least 15 returns 100. -/
theorem calcRSI_sorted (closes : List ℚ) (hlen : 15 ≤ closes.length)
    (hs : closes.Sorted (· ≤ ·)) : calcRSI closes = some 100 :=
  calcRSI_eq_100_of_no_losses closes hlen
    (gainsLosses_snd_of_sorted _ (hs.sublist (List.drop_sublist _ _)))

/-- `calcRSI` below the minimum length reports unavailable. -/
theorem calcRSI_short (closes : List ℚ) (hlen : closes.length < 15) :
    calcRSI closes = none := by
  rw [calcRSI, if_pos (by omega)]

/-- `calcRSI` with a nonzero trailing loss sum follows the RS formula. -/
theorem calcRSI_formula (closes : List ℚ) (g l : ℚ) (hlen : 15 ≤ closes.length)
    (hgl : gainsLosses (closes.drop (closes.length - 15)) = (g, l)) (hl : l ≠ 0) :
    calcRSI closes = some (100 - 100 / (1 + (g / 14) / (l / 14))) := by
  rw [calcRSI, if_neg (by omega)]
  have h15 : closes.length - (14 + 1) = closes.length - 15 := by norm_num
  simp only [h15, hgl]
  rw [if_neg hl]
  norm_num

/-- A constant list is sorted (non-decreasing). -/
theorem sorted_replicate (n : ℕ) (c : ℚ) :
    (List.replicate n c).Sorted (· ≤ ·) := by
  induction n with
  | zero => simp
  | succ n ih =>
      rw [List.replicate_succ, List.sorted_cons]
      exact ⟨fun b hb => le_of_eq (List.eq_of_mem_replicate hb).symm, ih⟩

/-- The EMA-crossover rule never emits more than one alert in a single
evaluation (bullish and bearish are exclusive branches). -/
theorem emaCrossAlerts_length_le_one (t : Thresholds) (h : List ℚ) :
    (emaCrossAlerts t h).length ≤ 1 := by
  unfold emaCrossAlerts
  cases calcEMA h t.maShortPeriod <;> cases calcEMA h t.maLongPeriod <;>
    cases calcEMA h.dropLast t.maShortPeriod <;>
    cases calcEMA h.dropLast t.maLongPeriod
  all_goals simp
  all_goals split_ifs
  all_goals simp

/-! ## Claims C3, C4, C5, C6 -/

/-- C3 (amended): for any closing-price sequence of length < 15, `calcRSI`
returns `none`; for length ≥ 15 it returns 100 whenever the trailing 14
deltas contain no decrease (in particular for every monotonically
non-decreasing sequence), and only when some trailing delta is negative
does it return `100 - 100/(1+RS)` with `RS` the ratio of average gain to
average loss over the trailing 14 deltas of the most recent 15 closes. -/
theorem c3_rsi_amended :
    (∀ closes : List ℚ, closes.length < 15 → calcRSI closes = none)
    ∧ (∀ closes : List ℚ, 15 ≤ closes.length → closes.Sorted (· ≤ ·) →
        calcRSI closes = some 100)
    ∧ (∀ closes : List ℚ, 15 ≤ closes.length →
        (gainsLosses (closes.drop (closes.length - 15))).2 = 0 →
        calcRSI closes = some 100)
    ∧ (∀ (closes : List ℚ) (g l : ℚ), 15 ≤ closes.length →
        gainsLosses (closes.drop (closes.length - 15)) = (g, l) → l ≠ 0 →
        calcRSI closes = some (100 - 100 / (1 + (g / 14) / (l / 14)))) :=
  ⟨calcRSI_short, calcRSI_sorted, calcRSI_eq_100_of_no_losses, calcRSI_formula⟩

/-- Witness for C3: the three branches at concrete inputs. -/
theorem c3_rsi_amended_witness :
    calcRSI ([] : List ℚ) = none
    ∧ calcRSI (List.replicate 15 (1 : ℚ)) = some 100
    ∧ calcRSI ((2 : ℚ) :: List.replicate 14 (1 : ℚ)) = some 0 := by
  refine ⟨c3_rsi_amended.1 [] (by norm_num), c3_rsi_amended.2.1 _ (by norm_num) ?_, ?_⟩
  · exact sorted_replicate 15 1
  · have h := c3_rsi_amended.2.2.2 ((2 : ℚ) :: List.replicate 14 (1 : ℚ)) 0 1
      (by norm_num) (by norm_num [gainsLosses, List.replicate]) (by norm_num)
    rw [h]
    norm_num

/-- C3 counterexample: a sequence that is NOT monotonically non-decreasing
(it opens with a drop) but whose trailing 14 deltas are all zero; the code
returns 100, while the claim's "otherwise" formula — with the 0/0 gain/loss
ratio read as a rational — yields 0, and cannot yield 100 for any
non-negative ratio. -/
theorem c3_rsi_counterexample :
    calcRSI [(10 : ℚ), 5, 5, 5, 5, 5, 5, 5, 5, 5, 5, 5, 5, 5, 5, 5] = some 100
    ∧ ¬ ([(10 : ℚ), 5, 5, 5, 5, 5, 5, 5, 5, 5, 5, 5, 5, 5, 5, 5].Sorted (· ≤ ·))
    ∧ 15 ≤ [(10 : ℚ), 5, 5, 5, 5, 5, 5, 5, 5, 5, 5, 5, 5, 5, 5, 5].length
    ∧ gainsLosses ([(10 : ℚ), 5, 5, 5, 5, 5, 5, 5, 5, 5, 5, 5, 5, 5, 5, 5].drop
        ([(10 : ℚ), 5, 5, 5, 5, 5, 5, 5, 5, 5, 5, 5, 5, 5, 5, 5].length - 15)) = (0, 0)
    ∧ (100 : ℚ) - 100 / (1 + ((0 : ℚ) / 14) / ((0 : ℚ) / 14)) = 0 := by
  refine ⟨by norm_num [calcRSI, gainsLosses], ?_, by norm_num, by norm_num [gainsLosses], by norm_num⟩
  intro h
  have h5 : (10 : ℚ) ≤ 5 := (List.sorted_cons.mp h).1 5 (by norm_num)
  linarith

/-- C4: EMA and SMA of a constant sequence both equal that constant, for
every period `p` with `n ≥ p ≥ 1`. -/
theorem c4_ema_sma_constant (c : ℚ) (n p : ℕ) (hp : 1 ≤ p) (hpn : p ≤ n) :
    calcEMA (List.replicate n c) p = some c
    ∧ calcSMA (List.replicate n c) p = some c :=
  ⟨calcEMA_replicate c n p hp hpn, calcSMA_replicate c n p hp hpn⟩

/-- Witness for C4 at `c = 7`, `n = 3`, `p = 2`. -/
theorem c4_ema_sma_constant_witness :
    calcEMA (List.replicate 3 (7 : ℚ)) 2 = some 7
    ∧ calcSMA (List.replicate 3 (7 : ℚ)) 2 = some 7 :=
  c4_ema_sma_constant 7 3 2 (by norm_num) (by norm_num)

/-- C5 (amended): when all four EMA values are computable AND nonzero
(the JavaScript truthiness guard), a bullish EMA crossover fires exactly
once under `prev short ≤ prev long ∧ cur short > cur long`; and no single
evaluation ever yields both a bullish and a bearish EMA crossover alert. -/
theorem c5_ema_cross_amended (t : Thresholds) (history : List ℚ) (a b c d : ℚ)
    (hS : calcEMA history t.maShortPeriod = some a)
    (hL : calcEMA history t.maLongPeriod = some b)
    (hpS : calcEMA history.dropLast t.maShortPeriod = some c)
    (hpL : calcEMA history.dropLast t.maLongPeriod = some d)
    (ha : a ≠ 0) (hb : b ≠ 0) (hc : c ≠ 0) (hd : d ≠ 0)
    (hcross : c ≤ d ∧ a > b) :
    emaCrossAlerts t history
      = [{ type := .maCross, severity := .HIGH
           data := .emaCrossD "bullish" (toFixed2 a) (toFixed2 b) }]
    ∧ ∀ (t2 : Thresholds) (h2 : List ℚ), (emaCrossAlerts t2 h2).length ≤ 1 := by
  constructor
  · simp only [emaCrossAlerts, hS, hL, hpS, hpL]
    rw [if_pos ⟨ha, hb, hc, hd⟩, if_pos hcross]
  · exact emaCrossAlerts_length_le_one

/-- Witness for C5: a concrete bullish 1/2-period EMA crossover. -/
theorem c5_ema_cross_amended_witness :
    emaCrossAlerts
      { defaultThresholds with maShortPeriod := 1, maLongPeriod := 2 }
      [(1 : ℚ), 1, 1, 2]
      = [{ type := .maCross, severity := .HIGH
           data := .emaCrossD "bullish" (toFixed2 2) (toFixed2 (5/3)) }] := by
  have h := c5_ema_cross_amended
    { defaultThresholds with maShortPeriod := 1, maLongPeriod := 2 }
    [(1 : ℚ), 1, 1, 2] 2 (5/3) 1 1
    (by norm_num [calcEMA]) (by norm_num [calcEMA]) (by norm_num [calcEMA])
    (by norm_num [calcEMA]) (by norm_num) (by norm_num) (by norm_num) (by norm_num)
    ⟨by norm_num, by norm_num⟩
  exact h.1

/-- C5 counterexample: all four EMAs computable and the bullish-cross
inequalities hold (the current short EMA is exactly 0, the current long EMA
is negative), yet the truthiness guard `if (emaS && ...)` skips the rule,
so no alert fires — refuting the claim as stated. -/
theorem c5_ema_cross_counterexample :
    emaCrossAlerts { defaultThresholds with maShortPeriod := 1, maLongPeriod := 2 }
      [(-1 : ℚ), -1, 0] = []
    ∧ calcEMA [(-1 : ℚ), -1, 0] 1 = some 0
    ∧ calcEMA [(-1 : ℚ), -1, 0] 2 = some (-1/3)
    ∧ calcEMA ([(-1 : ℚ), -1, 0].dropLast) 1 = some (-1)
    ∧ calcEMA ([(-1 : ℚ), -1, 0].dropLast) 2 = some (-1)
    ∧ ((-1 : ℚ) ≤ -1) ∧ ((0 : ℚ) > -1/3) := by
  refine ⟨?_, by norm_num [calcEMA], by norm_num [calcEMA],
    by norm_num [calcEMA], by norm_num [calcEMA], le_rfl, by norm_num⟩
  norm_num [emaCrossAlerts, calcEMA]

/-! ## Deduplication and selection lemmas -/

/-- Looking up the key just set returns the new timestamp. -/
theorem lget_lset_same (key : String × AlertType) (v : ℤ) (l : Ledger) :
    lget (lset key v l) key = some v := by
  simp [lget, lset]

/-- Setting one key leaves lookups of other keys unchanged. -/
theorem lget_lset_ne (key k : String × AlertType) (v : ℤ) (l : Ledger)
    (h : k ≠ key) : lget (lset key v l) k = lget l k := by
  simp only [lget, lset]
  rw [if_neg (Ne.symm h)]

/-- `isDuplicate` in terms of `suppressed`: the boolean result is the
suppression test, and the ledger is stamped exactly when not suppressed. -/
theorem isDuplicate_eq (l : Ledger) (now window : ℤ) (tk : String) (ty : AlertType) :
    isDuplicate l now window tk ty
      = (suppressed l now window tk ty,
         if suppressed l now window tk ty then l else lset (tk, ty) now l) := by
  unfold suppressed isDuplicate
  cases lget l (tk, ty) with
  | none => simp
  | some last =>
      by_cases h : last ≠ 0 ∧ now - last < window
      · simp [h]
      · simp [h]

/-- Suppression only reads the ledger at its own key. -/
theorem suppressed_congr (l l' : Ledger) (now window : ℤ) (tk : String)
    (ty : AlertType) (h : lget l (tk, ty) = lget l' (tk, ty)) :
    suppressed l now window tk ty = suppressed l' now window tk ty := by
  unfold suppressed isDuplicate
  rw [h]
  cases lget l' (tk, ty) with
  | none => rfl
  | some last =>
      by_cases hc : last ≠ 0 ∧ now - last < window
      · simp [hc]
      · simp [hc]

/-- A key holding `some now` (with truthy `now` and a positive window) is
suppressed at time `now`. -/
theorem suppressed_of_lget_now (l : Ledger) (now window : ℤ) (tk : String)
    (ty : AlertType) (hl : lget l (tk, ty) = some now) (hnow : now ≠ 0)
    (hw : 0 < window) : suppressed l now window tk ty = true := by
  unfold suppressed isDuplicate
  rw [hl]
  simp [hnow, hw]

/-- One step of `dedupFilter`. -/
theorem dedupFilter_cons (tk : String) (now window : ℤ) (l : Ledger)
    (a : Alert) (rest : List Alert) :
    dedupFilter tk now window l (a :: rest)
      = (if suppressed l now window tk a.type
          then dedupFilter tk now window l rest
          else
            let k := dedupFilter tk now window (lset (tk, a.type) now l) rest
            (a :: k.1, k.2)) := by
  rw [dedupFilter, isDuplicate_eq]
  by_cases h : suppressed l now window tk a.type = true
  · simp [h]
  · simp only [Bool.not_eq_true] at h
    simp [h]

/-- `dedupFilter` distributes over append, threading the ledger. -/
theorem dedupFilter_append (tk : String) (now window : ℤ) :
    ∀ (xs ys : List Alert) (l : Ledger),
      dedupFilter tk now window l (xs ++ ys)
        = ((dedupFilter tk now window l xs).1
             ++ (dedupFilter tk now window (dedupFilter tk now window l xs).2 ys).1,
           (dedupFilter tk now window (dedupFilter tk now window l xs).2 ys).2) := by
  intro xs
  induction xs with
  | nil => intro ys l; simp [dedupFilter]
  | cons a xs ih =>
      intro ys l
      rw [List.cons_append, dedupFilter_cons, dedupFilter_cons]
      by_cases h : suppressed l now window tk a.type = true
      · rw [if_pos h, if_pos h, ih]
      · simp only [Bool.not_eq_true] at h
        simp only [h, if_neg Bool.false_ne_true, ih]
        simp [List.cons_append]

/-- Keys whose kind does not occur among the candidates keep their ledger
value across a `dedupFilter` run. -/
theorem dedupFilter_lget_other (tk : String) (now window : ℤ)
    (k : String × AlertType) :
    ∀ (cands : List Alert) (l : Ledger), (∀ a ∈ cands, k ≠ (tk, a.type)) →
      lget (dedupFilter tk now window l cands).2 k = lget l k := by
  intro cands
  induction cands with
  | nil => intro l _; rfl
  | cons a rest ih =>
      intro l hk
      rw [dedupFilter_cons]
      by_cases h : suppressed l now window tk a.type = true
      · rw [if_pos h]
        exact ih l (fun b hb => hk b (List.mem_cons_of_mem a hb))
      · simp only [Bool.not_eq_true] at h
        simp only [h, if_neg Bool.false_ne_true]
        rw [ih _ (fun b hb => hk b (List.mem_cons_of_mem a hb))]
        exact lget_lset_ne _ _ _ _ (hk a (List.mem_cons_self a rest))

/-- A ledger key already holding `some now` still holds `some now` after a
`dedupFilter` run at time `now` (entries are only ever stamped to `now`). -/
theorem dedupFilter_lget_now (tk : String) (now window : ℤ)
    (k : String × AlertType) :
    ∀ (cands : List Alert) (l : Ledger), lget l k = some now →
      lget (dedupFilter tk now window l cands).2 k = some now := by
  intro cands
  induction cands with
  | nil => intro l h; exact h
  | cons a rest ih =>
      intro l h
      rw [dedupFilter_cons]
      by_cases hs : suppressed l now window tk a.type = true
      · rw [if_pos hs]; exact ih l h
      · simp only [Bool.not_eq_true] at hs
        simp only [hs, if_neg Bool.false_ne_true]
        refine ih _ ?_
        by_cases hk : k = (tk, a.type)
        · rw [hk, lget_lset_same]
        · rw [lget_lset_ne _ _ _ _ hk]; exact h

/-- With a truthy clock and a positive window, no survivor carries a kind
whose key already holds `some now`. -/
theorem dedupFilter_no_fresh_kind (tk : String) (now window : ℤ)
    (ty : AlertType) (hnow : now ≠ 0) (hw : 0 < window) :
    ∀ (cands : List Alert) (l : Ledger), lget l (tk, ty) = some now →
      ∀ a ∈ (dedupFilter tk now window l cands).1, a.type ≠ ty := by
  intro cands
  induction cands with
  | nil => intro l _ a ha; exact absurd ha (List.not_mem_nil a)
  | cons b rest ih =>
      intro l hl a ha
      rw [dedupFilter_cons] at ha
      by_cases hbty : b.type = ty
      · have hsup : suppressed l now window tk b.type = true := by
          rw [hbty]; exact suppressed_of_lget_now l now window tk ty hl hnow hw
        rw [if_pos hsup] at ha
        exact ih l hl a ha
      · by_cases hs : suppressed l now window tk b.type = true
        · rw [if_pos hs] at ha
          exact ih l hl a ha
        · simp only [Bool.not_eq_true] at hs
          simp only [hs, if_neg Bool.false_ne_true] at ha
          rcases List.mem_cons.mp ha with hab | hmem
          · rw [hab]; exact hbty
          · refine ih _ ?_ a hmem
            rw [lget_lset_ne _ _ _ _ (fun he => hbty (congrArg Prod.snd he).symm)]
            exact hl

/-- Survivors of `dedupFilter` form a sublist of the candidates. -/
theorem dedupFilter_sublist (tk : String) (now window : ℤ) :
    ∀ (cands : List Alert) (l : Ledger),
      (dedupFilter tk now window l cands).1.Sublist cands := by
  intro cands
  induction cands with
  | nil => intro l; simp [dedupFilter]
  | cons a rest ih =>
      intro l
      rw [dedupFilter_cons]
      by_cases h : suppressed l now window tk a.type = true
      · rw [if_pos h]
        exact (ih l).trans (List.sublist_cons_self a rest)
      · simp only [Bool.not_eq_true] at h
        simp only [h, if_neg Bool.false_ne_true]
        exact List.Sublist.cons₂ a (ih _)

/-- With a truthy clock and a positive window the surviving kinds are
pairwise distinct: the first candidate of a kind stamps the ledger and every
later candidate of that kind in the same pass is dropped. -/
theorem dedupFilter_nodup_kinds (tk : String) (now window : ℤ)
    (hnow : now ≠ 0) (hw : 0 < window) :
    ∀ (cands : List Alert) (l : Ledger),
      ((dedupFilter tk now window l cands).1.map (·.type)).Nodup := by
  intro cands
  induction cands with
  | nil => intro l; simp [dedupFilter]
  | cons a rest ih =>
      intro l
      rw [dedupFilter_cons]
      by_cases h : suppressed l now window tk a.type = true
      · rw [if_pos h]; exact ih l
      · simp only [Bool.not_eq_true] at h
        simp only [h, if_neg Bool.false_ne_true]
        rw [List.map_cons, List.nodup_cons]
        constructor
        · intro hmem
          rcases List.mem_map.mp hmem with ⟨b, hb, hbty⟩
          exact dedupFilter_no_fresh_kind tk now window a.type hnow hw rest _
            (lget_lset_same _ _ _) b hb hbty
        · exact ih _

/-- When the candidate kinds are pairwise distinct and none is suppressed,
every candidate survives `dedupFilter` and every candidate's ledger key ends
up stamped with `now`. -/
theorem dedupFilter_all_pass (tk : String) (now window : ℤ) :
    ∀ (cands : List Alert) (l : Ledger),
      ((cands.map (·.type)).Nodup) →
      (∀ a ∈ cands, suppressed l now window tk a.type = false) →
      (dedupFilter tk now window l cands).1 = cands
      ∧ ∀ a ∈ cands,
          lget (dedupFilter tk now window l cands).2 (tk, a.type) = some now := by
  intro cands
  induction cands with
  | nil => intro l _ _; exact ⟨rfl, fun a ha => absurd ha (List.not_mem_nil a)⟩
  | cons a rest ih =>
      intro l hnd hns
      have hsa : suppressed l now window tk a.type = false :=
        hns a (List.mem_cons_self a rest)
      rw [dedupFilter_cons]
      simp only [hsa, if_neg Bool.false_ne_true]
      have hhead : a.type ∉ rest.map (·.type) := (List.nodup_cons.mp (by simpa using hnd)).1
      have hrest : ∀ b ∈ rest, suppressed (lset (tk, a.type) now l) now window tk b.type
          = false := by
        intro b hb
        have hne : (tk, b.type) ≠ (tk, a.type) := by
          intro he
          exact hhead (List.mem_map.mpr ⟨b, hb, congrArg Prod.snd he⟩)
        rw [suppressed_congr _ l now window tk b.type (lget_lset_ne _ _ _ _ hne)]
        exact hns b (List.mem_cons_of_mem a hb)
      have hih := ih (lset (tk, a.type) now l) (List.nodup_cons.mp (by simpa using hnd)).2 hrest
      refine ⟨by rw [hih.1], ?_⟩
      intro b hb
      rcases List.mem_cons.mp hb with hba | hbm
      · rw [hba]
        exact dedupFilter_lget_now tk now window _ rest _ (lget_lset_same _ _ _)
      · exact hih.2 b hbm

/-- When every candidate kind is suppressed, nothing survives and the
ledger is untouched. -/
theorem dedupFilter_all_drop (tk : String) (now window : ℤ) :
    ∀ (cands : List Alert) (l : Ledger),
      (∀ a ∈ cands, suppressed l now window tk a.type = true) →
      dedupFilter tk now window l cands = ([], l) := by
  intro cands
  induction cands with
  | nil => intro l _; rfl
  | cons a rest ih =>
      intro l hs
      rw [dedupFilter_cons, if_pos (hs a (List.mem_cons_self a rest))]
      exact ih l (fun b hb => hs b (List.mem_cons_of_mem a hb))

/-- `oInsert` produces a permutation of consing the element. -/
theorem oInsert_perm (key : Alert → ℤ) (a : Alert) :
    ∀ l : List Alert, (oInsert key a l).Perm (a :: l) := by
  intro l
  induction l with
  | nil => exact List.Perm.refl _
  | cons b l ih =>
      rw [oInsert]
      by_cases h : key a ≤ key b
      · rw [if_pos h]
      · rw [if_neg h]
        exact (List.Perm.cons b ih).trans (List.Perm.swap a b l)

/-- `stableSort` permutes its input. -/
theorem stableSort_perm (key : Alert → ℤ) :
    ∀ l : List Alert, (stableSort key l).Perm l := by
  intro l
  induction l with
  | nil => exact List.Perm.refl _
  | cons a l ih =>
      rw [stableSort]
      exact (oInsert_perm key a _).trans (List.Perm.cons a ih)

/-- `oInsert` preserves sortedness by the key. -/
theorem oInsert_pairwise (key : Alert → ℤ) (a : Alert) :
    ∀ l : List Alert, l.Pairwise (fun x y => key x ≤ key y) →
      (oInsert key a l).Pairwise (fun x y => key x ≤ key y) := by
  intro l
  induction l with
  | nil => intro _; exact List.pairwise_singleton _ a
  | cons b l ih =>
      intro hp
      rw [oInsert]
      rcases List.pairwise_cons.mp hp with ⟨hb, hl⟩
      by_cases h : key a ≤ key b
      · rw [if_pos h]
        exact List.pairwise_cons.mpr
          ⟨fun x hx => by
            rcases List.mem_cons.mp hx with hxb | hxl
            · rw [hxb]; exact h
            · exact h.trans (hb x hxl), hp⟩
      · rw [if_neg h]
        refine List.pairwise_cons.mpr ⟨?_, ih hl⟩
        intro x hx
        rcases List.mem_cons.mp (((oInsert_perm key a l).mem_iff).mp hx) with hxa | hxl
        · rw [hxa]; exact le_of_not_le h
        · exact hb x hxl

/-- `stableSort` output is sorted (non-decreasing) by the key. -/
theorem stableSort_pairwise (key : Alert → ℤ) :
    ∀ l : List Alert, (stableSort key l).Pairwise (fun x y => key x ≤ key y) := by
  intro l
  induction l with
  | nil => exact List.Pairwise.nil
  | cons a l ih => exact oInsert_pairwise key a _ ih

/-- Inserting an element whose key equals `p` prepends it to the key-`p`
fibre; all skipped elements have strictly smaller keys. -/
theorem oInsert_filter_eq (key : Alert → ℤ) (p : ℤ) (a : Alert) (hk : key a = p) :
    ∀ l : List Alert, l.Pairwise (fun x y => key x ≤ key y) →
      (oInsert key a l).filter (fun x => key x == p)
        = a :: l.filter (fun x => key x == p) := by
  intro l
  induction l with
  | nil => intro _; simp [oInsert, List.filter, hk]
  | cons b l ih =>
      intro hp
      rcases List.pairwise_cons.mp hp with ⟨hb, hl⟩
      rw [oInsert]
      by_cases h : key a ≤ key b
      · rw [if_pos h]
        simp [List.filter, hk]
      · rw [if_neg h]
        have hbp : ¬ (key b == p) = true := by
          simp only [beq_iff_eq]
          intro he
          exact h (by rw [hk, ← he])
        rw [List.filter_cons, if_neg hbp, List.filter_cons, if_neg hbp]
        exact ih hl

/-- Inserting an element whose key differs from `p` leaves the key-`p`
fibre unchanged. -/
theorem oInsert_filter_ne (key : Alert → ℤ) (p : ℤ) (a : Alert) (hk : key a ≠ p) :
    ∀ l : List Alert,
      (oInsert key a l).filter (fun x => key x == p)
        = l.filter (fun x => key x == p) := by
  intro l
  have hap : ¬ (key a == p) = true := by simpa using hk
  induction l with
  | nil => simp [oInsert, List.filter, hap]
  | cons b l ih =>
      rw [oInsert]
      by_cases h : key a ≤ key b
      · rw [if_pos h, List.filter_cons, if_neg hap]
      · rw [if_neg h, List.filter_cons, List.filter_cons, ih]

/-- Stability of `stableSort`: each equal-key fibre of the output is the
corresponding fibre of the input, in the input's order. -/
theorem stableSort_filter (key : Alert → ℤ) (p : ℤ) :
    ∀ l : List Alert,
      (stableSort key l).filter (fun x => key x == p)
        = l.filter (fun x => key x == p) := by
  intro l
  induction l with
  | nil => rfl
  | cons a l ih =>
      rw [stableSort]
      by_cases hk : key a = p
      · rw [oInsert_filter_eq key p a hk _ (stableSort_pairwise key l), ih,
          List.filter_cons, if_pos (by simpa using hk)]
      · rw [oInsert_filter_ne key p a hk, ih, List.filter_cons,
          if_neg (by simpa using hk)]

/-- C6: with `priceChangePct = 2.0`, previous close 100 and price 103 give
exactly one MEDIUM priceChange alert with payload `changePct = "3.00"`;
price 105 (a 5% move, at least twice the threshold) gives severity HIGH. -/
theorem c6_price_change_scenario :
    checkThresholds defaultThresholds (mkQuote 103 100 0) none []
      = [{ type := .priceChange, severity := .MEDIUM
           data := .priceChangeD "3.00" 103 100 }]
    ∧ checkThresholds defaultThresholds (mkQuote 105 100 0) none []
      = [{ type := .priceChange, severity := .HIGH
           data := .priceChangeD "5.00" 105 100 }] := by
  constructor <;>
    · norm_num [checkThresholds, priceChangeAlerts, volumeSpikeAlerts, rsiAlerts,
        emaCrossAlerts, smaCrossAlerts, mkQuote, calcRSI, calcEMA, calcSMA,
        defaultThresholds, toFixed2, roundMag, pad2]
      rfl

/-! ## Remaining dedup helpers and claims C1, C2, C7, C8, C9, C10 -/

/-- A key whose stored timestamp is truthy and inside the window is
suppressed. -/
theorem suppressed_of_lget (l : Ledger) (now window : ℤ) (tk : String)
    (ty : AlertType) (last : ℤ) (hl : lget l (tk, ty) = some last)
    (h0 : last ≠ 0) (hw : now - last < window) :
    suppressed l now window tk ty = true := by
  unfold suppressed isDuplicate
  rw [hl]
  simp [h0, hw]

/-- A key whose stored timestamp fails the freshness test (zero timestamp
or a full window elapsed) is not suppressed. -/
theorem suppressed_stale (l : Ledger) (now window : ℤ) (tk : String)
    (ty : AlertType) (last : ℤ) (hl : lget l (tk, ty) = some last)
    (h : ¬(last ≠ 0 ∧ now - last < window)) :
    suppressed l now window tk ty = false := by
  unfold suppressed isDuplicate
  rw [hl]
  simp only [if_neg h]

/-- Taking a positive prefix of a singleton returns the singleton. -/
theorem take_pos_singleton (n : ℕ) (hn : 0 < n) (a : Alert) :
    List.take n [a] = [a] := by
  cases n with
  | zero => omega
  | succ m => simp

/-- C1: with 5 distinct unsuppressed candidate kinds and a cap of 3,
exactly 3 alerts survive, yet all 5 kinds get their ledger entry stamped to
`now` — so an identical candidate list probed again within the window
yields no surviving alerts at all. -/
theorem c1_truncated_kinds_still_stamped (order : List AlertType)
    (window now now2 : ℤ) (tk : String) (l0 : Ledger) (cands : List Alert)
    (h5 : cands.length = 5) (hnd : (cands.map (·.type)).Nodup)
    (hns : ∀ a ∈ cands, suppressed l0 now window tk a.type = false)
    (hnow : now ≠ 0) (_hseq : now ≤ now2) (hwin : now2 - now < window) :
    (selectAlerts order 3 window now tk l0 cands).1.length = 3
    ∧ (∀ a ∈ cands,
        lget (selectAlerts order 3 window now tk l0 cands).2 (tk, a.type) = some now)
    ∧ (selectAlerts order 3 window now2 tk
        (selectAlerts order 3 window now tk l0 cands).2 cands).1 = [] := by
  have hap := dedupFilter_all_pass tk now window cands l0 hnd hns
  refine ⟨?_, ?_, ?_⟩
  · show ((stableSort (fun a => jsIndexOf order a.type)
        (dedupFilter tk now window l0 cands).1).take 3).length = 3
    rw [hap.1, List.length_take,
      (stableSort_perm (fun a => jsIndexOf order a.type) cands).length_eq, h5]
    rfl
  · show ∀ a ∈ cands,
        lget (dedupFilter tk now window l0 cands).2 (tk, a.type) = some now
    exact hap.2
  · show ((stableSort (fun a => jsIndexOf order a.type)
        (dedupFilter tk now2 window (dedupFilter tk now window l0 cands).2 cands).1).take 3)
        = []
    have hall : ∀ a ∈ cands,
        suppressed (dedupFilter tk now window l0 cands).2 now2 window tk a.type = true := by
      intro a ha
      exact suppressed_of_lget _ now2 window tk a.type now (hap.2 a ha) hnow (by omega)
    rw [dedupFilter_all_drop tk now2 window cands _ hall]
    rfl

/-- Witness for C1: five distinct kinds, window 10, first pass at time 100,
probe at time 105. -/
theorem c1_truncated_kinds_still_stamped_witness :
    (selectAlerts defaultPriorityOrder 3 10 100 "A" []
      [probeAlert .priceChange, probeAlert .volumeSpike, probeAlert .rsi,
       probeAlert .maCross, probeAlert .nearTarget]).1.length = 3
    ∧ lget (selectAlerts defaultPriorityOrder 3 10 100 "A" []
        [probeAlert .priceChange, probeAlert .volumeSpike, probeAlert .rsi,
         probeAlert .maCross, probeAlert .nearTarget]).2 ("A", .maCross) = some 100
    ∧ (selectAlerts defaultPriorityOrder 3 10 105 "A"
        (selectAlerts defaultPriorityOrder 3 10 100 "A" []
          [probeAlert .priceChange, probeAlert .volumeSpike, probeAlert .rsi,
           probeAlert .maCross, probeAlert .nearTarget]).2
        [probeAlert .priceChange, probeAlert .volumeSpike, probeAlert .rsi,
         probeAlert .maCross, probeAlert .nearTarget]).1 = [] := by
  have h := c1_truncated_kinds_still_stamped defaultPriorityOrder 10 100 105 "A" []
    [probeAlert .priceChange, probeAlert .volumeSpike, probeAlert .rsi,
     probeAlert .maCross, probeAlert .nearTarget]
    (by decide) (by decide) (by decide) (by decide) (by decide) (by decide)
  exact ⟨h.1, h.2.1 (probeAlert .maCross) (by decide), h.2.2⟩

/-- C2 (amended): with a valid (present, nonzero) trailing-average volume,
a volumeSpike alert is emitted iff current volume exceeds average × the
configured multiplier, and its severity is HIGH iff the realized multiple
ROUNDED TO ONE DECIMAL (the payload's `multiple` field) is at least 3.0,
else MEDIUM. -/
theorem c2_volume_spike_amended (t : Thresholds) (q : Quote) (av : ℚ)
    (hav : av ≠ 0) :
    (volumeSpikeAlerts t q (some av) ≠ [] ↔ q.volume > av * t.volumeSpikeMultiplier)
    ∧ (q.volume > av * t.volumeSpikeMultiplier →
        volumeSpikeAlerts t q (some av)
          = [{ type := .volumeSpike
               severity := if roundTo1 (q.volume / av) ≥ 3 then .HIGH else .MEDIUM
               data := .volumeSpikeD q.volume (mathRound av) (roundTo1 (q.volume / av)) }]) := by
  constructor
  · by_cases hc : q.volume > av * t.volumeSpikeMultiplier
    · simp only [volumeSpikeAlerts, if_pos (And.intro hav hc)]
      simp [hc]
    · simp only [volumeSpikeAlerts,
        if_neg (fun hand : av ≠ 0 ∧ q.volume > av * t.volumeSpikeMultiplier => hc hand.2)]
      simp [hc]
  · intro hc
    simp only [volumeSpikeAlerts, if_pos (And.intro hav hc)]

/-- Witness for C2: volume 500 against average 100 (multiple 5.0) fires
with severity HIGH. -/
theorem c2_volume_spike_amended_witness :
    volumeSpikeAlerts defaultThresholds (mkQuote 100 100 500) (some 100)
      = [{ type := .volumeSpike, severity := .HIGH
           data := .volumeSpikeD 500 100 5 }] := by
  have h := (c2_volume_spike_amended defaultThresholds (mkQuote 100 100 500) 100
    (by norm_num)).2 (by norm_num [mkQuote, defaultThresholds])
  rw [h]
  norm_num [mkQuote, roundTo1, roundMag, mathRound]

/-- C2 counterexample: volume 297 against average 100 — the realized
multiple 2.97 is strictly below 3.0, so the claim demands MEDIUM, but the
code rounds `(297/100).toFixed(1) = "3.0"` first and emits HIGH. -/
theorem c2_volume_spike_counterexample :
    volumeSpikeAlerts defaultThresholds (mkQuote 100 100 297) (some 100)
      = [{ type := .volumeSpike, severity := .HIGH
           data := .volumeSpikeD 297 100 3 }]
    ∧ ¬ ((297 : ℚ) / 100 ≥ 3) := by
  constructor
  · norm_num [volumeSpikeAlerts, mkQuote, defaultThresholds, roundTo1, roundMag, mathRound]
  · norm_num

/-- C7: an unsuppressed kind fires at `t1` (stamping the ledger); firing it
again strictly within the window at `t2` yields nothing and leaves the
ledger unchanged; firing once a full window has elapsed since the ledger
timestamp (`t3 - t1 ≥ window`) yields a second surviving alert. -/
theorem c7_dedup_window (order : List AlertType) (maxN : ℕ)
    (window t1 t2 t3 : ℤ) (tk : String) (a : Alert) (l0 : Ledger)
    (hmax : 0 < maxN)
    (hns : suppressed l0 t1 window tk a.type = false)
    (h1 : t1 ≠ 0) (h2 : t2 - t1 < window) (h3 : window ≤ t3 - t1) :
    (selectAlerts order maxN window t1 tk l0 [a]).1 = [a]
    ∧ (selectAlerts order maxN window t2 tk
        (selectAlerts order maxN window t1 tk l0 [a]).2 [a]).1 = []
    ∧ (selectAlerts order maxN window t2 tk
        (selectAlerts order maxN window t1 tk l0 [a]).2 [a]).2
      = (selectAlerts order maxN window t1 tk l0 [a]).2
    ∧ (selectAlerts order maxN window t3 tk
        (selectAlerts order maxN window t2 tk
          (selectAlerts order maxN window t1 tk l0 [a]).2 [a]).2 [a]).1 = [a] := by
  have hd1 : dedupFilter tk t1 window l0 [a] = ([a], lset (tk, a.type) t1 l0) := by
    rw [dedupFilter_cons]
    simp only [hns, if_neg Bool.false_ne_true]
    rfl
  have hl1 : lget (lset (tk, a.type) t1 l0) (tk, a.type) = some t1 := lget_lset_same _ _ _
  have hsup2 : suppressed (lset (tk, a.type) t1 l0) t2 window tk a.type = true :=
    suppressed_of_lget _ t2 window tk a.type t1 hl1 h1 h2
  have hd2 : dedupFilter tk t2 window (lset (tk, a.type) t1 l0) [a]
      = ([], lset (tk, a.type) t1 l0) :=
    dedupFilter_all_drop tk t2 window [a] _
      (fun b hb => by rw [List.mem_singleton.mp hb]; exact hsup2)
  have hsup3 : suppressed (lset (tk, a.type) t1 l0) t3 window tk a.type = false :=
    suppressed_stale _ t3 window tk a.type t1 hl1 (by omega)
  have hd3 : dedupFilter tk t3 window (lset (tk, a.type) t1 l0) [a]
      = ([a], lset (tk, a.type) t3 (lset (tk, a.type) t1 l0)) := by
    rw [dedupFilter_cons]
    simp only [hsup3, if_neg Bool.false_ne_true]
    rfl
  have hsel1 : (selectAlerts order maxN window t1 tk l0 [a])
      = ([a], lset (tk, a.type) t1 l0) := by
    show ((stableSort (fun x => jsIndexOf order x.type)
        (dedupFilter tk t1 window l0 [a]).1).take maxN,
        (dedupFilter tk t1 window l0 [a]).2) = _
    rw [hd1]
    show ((stableSort (fun x => jsIndexOf order x.type) [a]).take maxN, _) = _
    rw [show stableSort (fun x => jsIndexOf order x.type) [a] = [a] from rfl,
      take_pos_singleton maxN hmax a]
  refine ⟨by rw [hsel1], ?_, ?_, ?_⟩
  · rw [hsel1]
    show ((stableSort (fun x => jsIndexOf order x.type)
        (dedupFilter tk t2 window (lset (tk, a.type) t1 l0) [a]).1).take maxN) = []
    rw [hd2]
    simp [stableSort]
  · rw [hsel1]
    show (dedupFilter tk t2 window (lset (tk, a.type) t1 l0) [a]).2
        = lset (tk, a.type) t1 l0
    rw [hd2]
  · rw [hsel1]
    have hsel2 : (selectAlerts order maxN window t2 tk (lset (tk, a.type) t1 l0) [a]).2
        = lset (tk, a.type) t1 l0 := by
      show (dedupFilter tk t2 window (lset (tk, a.type) t1 l0) [a]).2 = _
      rw [hd2]
    rw [hsel2]
    show ((stableSort (fun x => jsIndexOf order x.type)
        (dedupFilter tk t3 window (lset (tk, a.type) t1 l0) [a]).1).take maxN) = [a]
    rw [hd3]
    show ((stableSort (fun x => jsIndexOf order x.type) [a]).take maxN) = [a]
    rw [show stableSort (fun x => jsIndexOf order x.type) [a] = [a] from rfl,
      take_pos_singleton maxN hmax a]

/-- Witness for C7: kind `rsi`, window 10, fires at 100, suppressed at 105,
fires again at 110. -/
theorem c7_dedup_window_witness :
    (selectAlerts defaultPriorityOrder 3 10 100 "A" [] [probeAlert .rsi]).1
      = [probeAlert .rsi]
    ∧ (selectAlerts defaultPriorityOrder 3 10 105 "A"
        (selectAlerts defaultPriorityOrder 3 10 100 "A" [] [probeAlert .rsi]).2
        [probeAlert .rsi]).1 = []
    ∧ (selectAlerts defaultPriorityOrder 3 10 105 "A"
        (selectAlerts defaultPriorityOrder 3 10 100 "A" [] [probeAlert .rsi]).2
        [probeAlert .rsi]).2
      = (selectAlerts defaultPriorityOrder 3 10 100 "A" [] [probeAlert .rsi]).2
    ∧ (selectAlerts defaultPriorityOrder 3 10 110 "A"
        (selectAlerts defaultPriorityOrder 3 10 105 "A"
          (selectAlerts defaultPriorityOrder 3 10 100 "A" [] [probeAlert .rsi]).2
          [probeAlert .rsi]).2 [probeAlert .rsi]).1 = [probeAlert .rsi] :=
  c7_dedup_window defaultPriorityOrder 3 10 100 105 110 "A" (probeAlert .rsi) []
    (by decide) (by decide) (by decide) (by decide) (by decide)

/-- C8: for an active matching position with a (truthy) stop-loss and no
target, the evaluator computes the signed percent distance
`(price - stop)/price * 100` and emits exactly one CRITICAL nearStopLoss
alert iff its absolute value is within the threshold. -/
theorem c8_near_stop_loss (t : Thresholds) (tk : String) (q : Quote)
    (p : Position) (s : ℚ) (hsym : p.symbol = tk) (hact : p.active = true)
    (hs : p.stopLoss = some s) (hs0 : s ≠ 0) (htg : p.target = none) :
    checkPositions t tk q [p]
      = if |(q.price - s) / q.price * 100| ≤ t.nearStopLossPct
          then [{ type := .nearStopLoss, severity := .CRITICAL
                  data := .nearStopD q.price s (toFixed1 ((q.price - s) / q.price * 100)) }]
          else [] := by
  have hcond : p.symbol = tk ∧ p.active = true := ⟨hsym, hact⟩
  simp only [checkPositions, List.flatMap_cons, List.flatMap_nil, List.append_nil,
    hsym, hact, and_self, if_true, positionAlerts, hs, htg]
  rw [if_pos hs0]

/-- Witness for C8: threshold 2%, price 99 / stop 98 (distance about 1.01%)
fires CRITICAL; price 90 / stop 98 (distance about -8.9%) does not fire. -/
theorem c8_near_stop_loss_witness :
    checkPositions defaultThresholds "X" (mkQuote 99 100 0)
        [{ symbol := "X", stopLoss := some 98, target := none, active := true }]
      = [{ type := .nearStopLoss, severity := .CRITICAL
           data := .nearStopD 99 98 "1.0" }]
    ∧ checkPositions defaultThresholds "X" (mkQuote 90 100 0)
        [{ symbol := "X", stopLoss := some 98, target := none, active := true }]
      = [] := by
  constructor
  · rw [c8_near_stop_loss defaultThresholds "X" (mkQuote 99 100 0)
      { symbol := "X", stopLoss := some 98, target := none, active := true } 98
      rfl rfl rfl (by norm_num) rfl]
    norm_num [mkQuote, defaultThresholds, toFixed1, roundMag]
    rw [if_pos (show |(100 : ℚ) / 99| ≤ 2 by
      rw [abs_of_nonneg (by norm_num)]
      norm_num)]
    rfl
  · rw [c8_near_stop_loss defaultThresholds "X" (mkQuote 90 100 0)
      { symbol := "X", stopLoss := some 98, target := none, active := true } 98
      rfl rfl rfl (by norm_num) rfl]
    norm_num [mkQuote, defaultThresholds]
    rw [abs_of_nonneg (show (0 : ℚ) ≤ 80 / 9 by norm_num)]
    norm_num

/-- C9: the final per-instrument list is exactly the dedup survivors
(a sublist of the candidates in evaluation order), stably sorted by the
configured priority index of their kind, truncated to the configured
maximum: the output is priority-sorted, at most `maxN` long, and every
equal-priority fibre keeps the candidates' original order. -/
theorem c9_priority_selection (order : List AlertType) (maxN : ℕ)
    (window now : ℤ) (tk : String) (l0 : Ledger) (cands : List Alert) :
    (selectAlerts order maxN window now tk l0 cands).1
      = (stableSort (fun a => jsIndexOf order a.type)
          (dedupFilter tk now window l0 cands).1).take maxN
    ∧ (dedupFilter tk now window l0 cands).1.Sublist cands
    ∧ (selectAlerts order maxN window now tk l0 cands).1.Pairwise
        (fun a b => jsIndexOf order a.type ≤ jsIndexOf order b.type)
    ∧ (selectAlerts order maxN window now tk l0 cands).1.length ≤ maxN
    ∧ ∀ p : ℤ,
        (stableSort (fun a => jsIndexOf order a.type)
          (dedupFilter tk now window l0 cands).1).filter
            (fun x => jsIndexOf order x.type == p)
        = (dedupFilter tk now window l0 cands).1.filter
            (fun x => jsIndexOf order x.type == p) := by
  refine ⟨rfl, dedupFilter_sublist tk now window cands l0, ?_, ?_, ?_⟩
  · exact List.Pairwise.sublist (List.take_sublist maxN _)
      (stableSort_pairwise (fun a => jsIndexOf order a.type) _)
  · exact List.length_take_le maxN _
  · intro p
    exact stableSort_filter (fun a => jsIndexOf order a.type) p _

/-- C10: with a positive window and truthy clock, the final list never
carries two alerts of the same kind; in particular when an EMA crossover
and an SMA golden/death cross both fire (both of kind maCross), only the
first-evaluated one survives the dedup filter. -/
theorem c10_one_alert_per_kind (order : List AlertType) (maxN : ℕ)
    (window now : ℤ) (tk : String) (l0 : Ledger) (cands : List Alert)
    (hw : 0 < window) (hnow : now ≠ 0) :
    ((selectAlerts order maxN window now tk l0 cands).1.map (·.type)).Nodup
    ∧ ∀ (pre post : List Alert) (a : Alert), cands = pre ++ a :: post →
        a.type = .maCross → (∀ x ∈ pre, x.type ≠ .maCross) →
        suppressed l0 now window tk .maCross = false →
        (dedupFilter tk now window l0 cands).1.filter
          (fun x => x.type == .maCross) = [a] := by
  constructor
  · have hsurv := dedupFilter_nodup_kinds tk now window hnow hw cands l0
    have hperm : ((stableSort (fun a => jsIndexOf order a.type)
        (dedupFilter tk now window l0 cands).1).map (·.type)).Perm
        ((dedupFilter tk now window l0 cands).1.map (·.type)) :=
      (stableSort_perm _ _).map _
    have hsorted : ((stableSort (fun a => jsIndexOf order a.type)
        (dedupFilter tk now window l0 cands).1).map (·.type)).Nodup :=
      (hperm.nodup_iff).mpr hsurv
    show ((((stableSort (fun a => jsIndexOf order a.type)
        (dedupFilter tk now window l0 cands).1)).take maxN).map (·.type)).Nodup
    rw [List.map_take]
    exact (List.take_sublist maxN _).nodup hsorted
  · intro pre post a hc hty hpre hsup
    subst hc
    rw [dedupFilter_append]
    have hpre_none : ∀ x ∈ (dedupFilter tk now window l0 pre).1, x.type ≠ .maCross :=
      fun x hx => hpre x ((dedupFilter_sublist tk now window pre l0).mem hx)
    have hlkeep : lget (dedupFilter tk now window l0 pre).2 (tk, .maCross)
        = lget l0 (tk, .maCross) :=
      dedupFilter_lget_other tk now window (tk, .maCross) pre l0
        (fun x hx he => hpre x hx (congrArg Prod.snd he).symm)
    have hsup1 : suppressed (dedupFilter tk now window l0 pre).2 now window tk a.type
        = false := by
      rw [hty]
      rw [suppressed_congr _ l0 now window tk .maCross hlkeep]
      exact hsup
    rw [dedupFilter_cons, hsup1, if_neg Bool.false_ne_true]
    have hpost_none : ∀ b ∈ (dedupFilter tk now window
        (lset (tk, a.type) now (dedupFilter tk now window l0 pre).2) post).1,
        b.type ≠ .maCross := by
      intro b hb
      refine dedupFilter_no_fresh_kind tk now window .maCross hnow hw post _ ?_ b hb
      rw [hty] at *
      exact lget_lset_same _ _ _
    rw [List.filter_append, List.filter_cons]
    have hfpre : (dedupFilter tk now window l0 pre).1.filter
        (fun x => x.type == .maCross) = [] :=
      List.filter_eq_nil_iff.mpr (fun x hx => by simpa using hpre_none x hx)
    have hfpost : (dedupFilter tk now window
        (lset (tk, a.type) now (dedupFilter tk now window l0 pre).2) post).1.filter
        (fun x => x.type == .maCross) = [] :=
      List.filter_eq_nil_iff.mpr (fun b hb => by simpa using hpost_none b hb)
    rw [hfpre, if_pos (by simpa using hty), hfpost]
    rfl

/-- Witness for C10: an EMA-cross alert and an SMA golden-cross alert (both
kind maCross) in one candidate list — the final kinds are distinct and only
the first-evaluated maCross candidate survives the dedup filter. -/
theorem c10_one_alert_per_kind_witness :
    ((selectAlerts defaultPriorityOrder 3 10 100 "A" []
      [probeAlert .rsi,
       { type := .maCross, severity := .HIGH, data := .emaCrossD "bullish" "2.00" "1.67" },
       { type := .maCross, severity := .HIGH, data := .smaCrossD "golden" "5.00" "4.00" }]).1.map
        (·.type)).Nodup
    ∧ (dedupFilter "A" 100 10 []
        [probeAlert .rsi,
         { type := .maCross, severity := .HIGH, data := .emaCrossD "bullish" "2.00" "1.67" },
         { type := .maCross, severity := .HIGH, data := .smaCrossD "golden" "5.00" "4.00" }]).1.filter
        (fun x => x.type == .maCross)
      = [{ type := .maCross, severity := .HIGH, data := .emaCrossD "bullish" "2.00" "1.67" }] := by
  have h := c10_one_alert_per_kind defaultPriorityOrder 3 10 100 "A" []
    [probeAlert .rsi,
     { type := .maCross, severity := .HIGH, data := .emaCrossD "bullish" "2.00" "1.67" },
     { type := .maCross, severity := .HIGH, data := .smaCrossD "golden" "5.00" "4.00" }]
    (by decide) (by decide)
  exact ⟨h.1, h.2 [probeAlert .rsi]
    [{ type := .maCross, severity := .HIGH, data := .smaCrossD "golden" "5.00" "4.00" }]
    { type := .maCross, severity := .HIGH, data := .emaCrossD "bullish" "2.00" "1.67" }
    rfl rfl (by decide) (by decide)⟩
